import Mathlib

/-!
Shallow embedding of the coupon-management service (`src/logic.py`,
`src/models.py`, `src/storage.py`, `src/main.py`) and verification of its
specification claims.

Modelling conventions:
* Python `float` values (prices, discount values, discount amounts) are
  modelled as `ℚ`.
* Python `date` values are modelled as `Nat` written as `yyyymmdd` numerals;
  this encoding is order-isomorphic to calendar order on valid dates, and the
  code only ever compares dates.
* Python `str` ordering (ordinal, by code point) is modelled by `pyStrLt` on
  the string's character list; Python `str.upper()` on the ASCII strings used
  by the code is modelled by `pyUpper`.
* The global dict `USAGE_PER_USER` (`(userId, couponCode) -> int`, with
  `.get(key, 0)` reads) is modelled as a total function
  `String × String → Int` whose unset keys hold `0`.
* The global dict `COUPONS_DB` is modelled as a list of coupons in insertion
  order where iteration order matters (`get_best_coupon`), and as an
  association list where keyed access matters (`create_coupon`).
-/

namespace CouponService

/-- Python ordinal string comparison `a < b`, as a lexicographic comparison of
the code-point sequences of the two strings. -/
def pyStrLt : List Char → List Char → Bool
  | [], [] => false
  | [], _ :: _ => true
  | _ :: _, [] => false
  | a :: as, b :: bs => if a < b then true else if b < a then false else pyStrLt as bs

/-- Python `str.upper()` restricted to ASCII (the case fold the service
documents and uses for `discountType` and coupon codes). -/
def pyUpper (s : String) : String := ⟨s.data.map Char.toUpper⟩

/-- Dates are `yyyymmdd` numerals; the code only compares them. -/
abbrev Date := Nat

/-- `models.Eligibility`: every field optional, absent meaning "no
constraint". -/
structure Eligibility where
  allowedUserTiers : Option (List String) := none
  minLifetimeSpend : Option ℚ := none
  minOrdersPlaced : Option Int := none
  firstOrderOnly : Option Bool := none
  allowedCountries : Option (List String) := none
  minCartValue : Option ℚ := none
  applicableCategories : Option (List String) := none
  excludedCategories : Option (List String) := none
  minItemsCount : Option Int := none
  deriving DecidableEq, Repr

/-- `models.Coupon`. -/
structure Coupon where
  code : String
  description : String
  discountType : String
  discountValue : ℚ
  maxDiscountAmount : Option ℚ := none
  startDate : Date
  endDate : Date
  usageLimitPerUser : Option Int := none
  eligibility : Eligibility := {}
  deriving DecidableEq, Repr

/-- `models.UserContext`. -/
structure UserContext where
  userId : String
  userTier : String
  country : String
  lifetimeSpend : ℚ
  ordersPlaced : Int
  deriving DecidableEq, Repr

/-- `models.CartItem`. -/
structure CartItem where
  productId : String
  category : String
  unitPrice : ℚ
  quantity : Int
  deriving DecidableEq, Repr

/-- `models.Cart`. -/
structure Cart where
  items : List CartItem
  deriving DecidableEq, Repr

/-- The usage store `USAGE_PER_USER`: `(userId, couponCode) ↦ count`, with
unset keys reading as `0` (`dict.get(key, 0)`). -/
abbrev UsageStore := String × String → Int

/-- `logic.compute_cart_value`. -/
def compute_cart_value (cart : Cart) : ℚ :=
  (cart.items.map fun item => item.unitPrice * (item.quantity : ℚ)).sum

/-- `logic.compute_items_count`. -/
def compute_items_count (cart : Cart) : Int :=
  (cart.items.map fun item => item.quantity).sum

/-- `logic.get_cart_categories` (the Python `set` construction only
deduplicates; the result is only ever used for membership tests). -/
def get_cart_categories (cart : Cart) : List String :=
  (cart.items.map fun item => item.category).eraseDups

/-- `logic.is_within_date_range` with an explicit evaluation date (the
`today = date.today()` default is supplied by the caller in `main.py`). -/
def is_within_date_range (coupon : Coupon) (today : Date) : Bool :=
  decide (coupon.startDate ≤ today) && decide (today ≤ coupon.endDate)

/-- `logic.has_remaining_usage`, with the usage store passed explicitly. -/
def has_remaining_usage (usage : UsageStore) (coupon : Coupon) (user : UserContext) : Bool :=
  match coupon.usageLimitPerUser with
  | none => true
  | some lim => decide (usage (user.userId, coupon.code) < lim)

/-- `logic.user_eligibility_ok`. The Python early-`return False` chain is the
conjunction of the individual checks. Python truthiness (`if elig.field:`)
means a `None` or empty list imposes no constraint, and `firstOrderOnly`
restricts only when it is literally `True`. -/
def user_eligibility_ok (elig : Eligibility) (user : UserContext) (is_first_order : Bool) : Bool :=
  (match elig.allowedUserTiers with
   | some (t :: ts) => (t :: ts).contains user.userTier
   | _ => true) &&
  (match elig.minLifetimeSpend with
   | some m => !decide (user.lifetimeSpend < m)
   | none => true) &&
  (match elig.minOrdersPlaced with
   | some m => !decide (user.ordersPlaced < m)
   | none => true) &&
  (match elig.firstOrderOnly with
   | some true => is_first_order
   | _ => true) &&
  (match elig.allowedCountries with
   | some (c :: cs) => (c :: cs).contains user.country
   | _ => true)

/-- `logic.cart_eligibility_ok`. As above, the early-`return False` chain is a
conjunction, and `if elig.applicableCategories:` / `if elig.excludedCategories:`
fire only for a present **non-empty** list (Python truthiness). -/
def cart_eligibility_ok (elig : Eligibility) (cart : Cart) : Bool :=
  let cart_value := compute_cart_value cart
  let items_count := compute_items_count cart
  let categories := get_cart_categories cart
  (match elig.minCartValue with
   | some m => !decide (cart_value < m)
   | none => true) &&
  (match elig.minItemsCount with
   | some m => !decide (items_count < m)
   | none => true) &&
  (match elig.applicableCategories with
   | some (a :: tl) => categories.any fun c => (a :: tl).contains c
   | _ => true) &&
  (match elig.excludedCategories with
   | some (a :: tl) => !(categories.any fun c => (a :: tl).contains c)
   | _ => true)

/-- `logic.compute_discount`. -/
def compute_discount (coupon : Coupon) (cart_value : ℚ) : ℚ :=
  let dtype := pyUpper coupon.discountType
  let discount : ℚ :=
    if dtype = "FLAT" then coupon.discountValue
    else if dtype = "PERCENT" then
      let raw := cart_value * (coupon.discountValue / 100)
      match coupon.maxDiscountAmount with
      | some cap => min raw cap
      | none => raw
    else 0
  max 0 (min discount cart_value)

/-- The strict comparison realised by the sort key
`(-discount, endDate, code)` in `logic.pick_best_coupon`: `x` sorts strictly
before `y` iff `x` has the larger discount, or equal discount and the earlier
`endDate`, or equal discount and `endDate` and the ordinally smaller code. -/
def CandLt (x y : Coupon × ℚ) : Prop :=
  y.2 < x.2 ∨
    (x.2 = y.2 ∧
      (x.1.endDate < y.1.endDate ∨
        (x.1.endDate = y.1.endDate ∧ pyStrLt x.1.code.data y.1.code.data = true)))

instance (x y : Coupon × ℚ) : Decidable (CandLt x y) := by
  unfold CandLt; infer_instance

/-- The first element of `coupons.sort(key=...)` is the earliest list element
whose key is minimal (Python's sort is stable), i.e. the fold that replaces
the current best only on a strictly smaller key. -/
def pickFrom (x : Coupon × ℚ) (xs : List (Coupon × ℚ)) : Coupon × ℚ :=
  xs.foldl (fun best y => if CandLt y best then y else best) x

/-- `logic.pick_best_coupon`: sort by `(-discount, endDate, code)` ascending
and return the first element (`none` on an empty list). -/
def pick_best_coupon (coupons : List (Coupon × ℚ)) : Option (Coupon × ℚ) :=
  match coupons with
  | [] => none
  | x :: xs => some (pickFrom x xs)

/-- `logic.increment_usage` as a usage-store transformer. -/
def increment_usage (usage : UsageStore) (coupon : Coupon) (user : UserContext) : UsageStore :=
  fun k => if k = (user.userId, coupon.code) then usage k + 1 else usage k

/-- The candidate-building loop of `main.get_best_coupon`: each coupon of the
catalog passes the date, usage, user-eligibility and cart-eligibility checks
(the `continue` chain is their conjunction, in source order), and survivors
are paired with their computed discount when it is strictly positive.
`is_first_order` is `ordersPlaced == 0`, as computed by the route. -/
def candidate_discounts (db : List Coupon) (usage : UsageStore) (today : Date)
    (user : UserContext) (cart : Cart) : List (Coupon × ℚ) :=
  let cart_value := compute_cart_value cart
  let is_first_order := decide (user.ordersPlaced = 0)
  db.filterMap fun coupon =>
    if is_within_date_range coupon today &&
        has_remaining_usage usage coupon user &&
        user_eligibility_ok coupon.eligibility user is_first_order &&
        cart_eligibility_ok coupon.eligibility cart then
      let discount := compute_discount coupon cart_value
      if 0 < discount then some (coupon, discount) else none
    else none

/-- `models.BestCouponResponse`. -/
structure BestCouponResponse where
  coupon : Option Coupon
  discountAmount : ℚ
  deriving Repr

/-- The `main.get_best_coupon` route body: filter, pick the best candidate,
and on a hit consume one usage. The catalog list is `COUPONS_DB.values()` in
insertion order; the returned store is the post-request `USAGE_PER_USER`. -/
def get_best_coupon (db : List Coupon) (usage : UsageStore) (today : Date)
    (user : UserContext) (cart : Cart) : BestCouponResponse × UsageStore :=
  match pick_best_coupon (candidate_discounts db usage today user cart) with
  | none => (⟨none, 0⟩, usage)
  | some (best_coupon, best_discount) =>
    (⟨some best_coupon, best_discount⟩, increment_usage usage best_coupon user)

/-- Lookup in the coupon catalog viewed as an association list in insertion
order (`code -> Coupon`). -/
def dbLookup : List (String × Coupon) → String → Option Coupon
  | [], _ => none
  | (k, v) :: rest, key => if key = k then some v else dbLookup rest key

/-- The `main.create_coupon` route body: reject when the upper-cased code is
already a key, otherwise store the coupon (its `code` field normalised to
upper case) under that key; a Python dict insertion appends the new key. -/
def create_coupon (db : List (String × Coupon)) (coupon : Coupon) :
    Except String Coupon × List (String × Coupon) :=
  let code_upper := pyUpper coupon.code
  if (dbLookup db code_upper).isSome then
    (Except.error "Coupon code already exists", db)
  else
    let stored := { coupon with code := code_upper }
    (Except.ok stored, db ++ [(code_upper, stored)])

/-! Ordering infrastructure: `pyStrLt` is a strict total order on code-point
lists, and `CandLt` a strict weak order on candidates that is total on the
tie-break key `(discount, endDate, code)`. -/

theorem pyStrLt_cons_iff (a b : Char) (as bs : List Char) :
    pyStrLt (a :: as) (b :: bs) = true ↔ (a < b ∨ (a = b ∧ pyStrLt as bs = true)) := by
  simp only [pyStrLt]
  rcases lt_trichotomy a b with h | h | h
  · simp [h]
  · subst h
    simp [lt_irrefl a]
  · simp [h, lt_asymm h, h.ne']

theorem pyStrLt_irrefl (s : List Char) : pyStrLt s s = false := by
  induction s with
  | nil => rfl
  | cons a as ih => simp [pyStrLt, lt_irrefl a, ih]

theorem pyStrLt_trans :
    ∀ s t u : List Char, pyStrLt s t = true → pyStrLt t u = true → pyStrLt s u = true := by
  intro s
  induction s with
  | nil =>
    intro t u h1 h2
    cases t with
    | nil => simp [pyStrLt] at h1
    | cons b bs =>
      cases u with
      | nil => simp [pyStrLt] at h2
      | cons c cs => rfl
  | cons a as ih =>
    intro t u h1 h2
    cases t with
    | nil => simp [pyStrLt] at h1
    | cons b bs =>
      cases u with
      | nil => simp [pyStrLt] at h2
      | cons c cs =>
        rw [pyStrLt_cons_iff] at h1 h2 ⊢
        rcases h1 with h1 | ⟨h1e, h1r⟩
        · rcases h2 with h2 | ⟨h2e, h2r⟩
          · exact Or.inl (lt_trans h1 h2)
          · exact Or.inl (h2e ▸ h1)
        · rcases h2 with h2 | ⟨h2e, h2r⟩
          · exact Or.inl (h1e ▸ h2)
          · exact Or.inr ⟨h1e.trans h2e, ih bs cs h1r h2r⟩

theorem pyStrLt_connex :
    ∀ s t : List Char, pyStrLt s t = false → pyStrLt t s = false → s = t := by
  intro s
  induction s with
  | nil =>
    intro t h1 _
    cases t with
    | nil => rfl
    | cons b bs => simp [pyStrLt] at h1
  | cons a as ih =>
    intro t h1 h2
    cases t with
    | nil => simp [pyStrLt] at h2
    | cons b bs =>
      have h1' : ¬ (a < b ∨ (a = b ∧ pyStrLt as bs = true)) := by
        rw [← pyStrLt_cons_iff]; simp [h1]
      have h2' : ¬ (b < a ∨ (b = a ∧ pyStrLt bs as = true)) := by
        rw [← pyStrLt_cons_iff]; simp [h2]
      push_neg at h1' h2'
      have hab : a = b := le_antisymm h2'.1 h1'.1
      have hrec : as = bs := by
        refine ih bs ?_ ?_
        · cases hr : pyStrLt as bs with
          | false => rfl
          | true => exact absurd hr (h1'.2 hab)
        · cases hr : pyStrLt bs as with
          | false => rfl
          | true => exact absurd hr (h2'.2 hab.symm)
      rw [hab, hrec]

theorem string_data_eq {a b : String} (h : a.data = b.data) : a = b := by
  cases a
  cases b
  exact congrArg String.mk h

theorem candLt_irrefl (x : Coupon × ℚ) : ¬ CandLt x x := by
  intro h
  rcases h with h | ⟨_, h | ⟨_, h⟩⟩
  · exact lt_irrefl _ h
  · exact lt_irrefl _ h
  · rw [pyStrLt_irrefl] at h
    exact Bool.false_ne_true h

theorem candLt_trans {x y z : Coupon × ℚ} (h1 : CandLt x y) (h2 : CandLt y z) : CandLt x z := by
  rcases h1 with h1 | ⟨h1e, h1r⟩
  · rcases h2 with h2 | ⟨h2e, h2r⟩
    · exact Or.inl (lt_trans h2 h1)
    · exact Or.inl (h2e ▸ h1)
  · rcases h2 with h2 | ⟨h2e, h2r⟩
    · exact Or.inl (h1e ▸ h2)
    · refine Or.inr ⟨h1e.trans h2e, ?_⟩
      rcases h1r with h1r | ⟨h1de, h1c⟩
      · rcases h2r with h2r | ⟨h2de, h2c⟩
        · exact Or.inl (lt_trans h1r h2r)
        · exact Or.inl (h2de ▸ h1r)
      · rcases h2r with h2r | ⟨h2de, h2c⟩
        · exact Or.inl (h1de ▸ h2r)
        · exact Or.inr ⟨h1de.trans h2de, pyStrLt_trans _ _ _ h1c h2c⟩

theorem candLt_connex {x y : Coupon × ℚ} (h1 : ¬ CandLt x y) (h2 : ¬ CandLt y x) :
    x.2 = y.2 ∧ x.1.endDate = y.1.endDate ∧ x.1.code = y.1.code := by
  rcases lt_trichotomy x.2 y.2 with hd | hd | hd
  · exact absurd (Or.inl hd) h2
  · rcases lt_trichotomy x.1.endDate y.1.endDate with he | he | he
    · exact absurd (Or.inr ⟨hd, Or.inl he⟩) h1
    · have hc : x.1.code = y.1.code := by
        apply string_data_eq
        apply pyStrLt_connex
        · cases hr : pyStrLt x.1.code.data y.1.code.data with
          | false => rfl
          | true => exact absurd (Or.inr ⟨hd, Or.inr ⟨he, hr⟩⟩) h1
        · cases hr : pyStrLt y.1.code.data x.1.code.data with
          | false => rfl
          | true => exact absurd (Or.inr ⟨hd.symm, Or.inr ⟨he.symm, hr⟩⟩) h2
      exact ⟨hd, he, hc⟩
    · exact absurd (Or.inr ⟨hd.symm, Or.inl he⟩) h2
  · exact absurd (Or.inl hd) h1

theorem candLt_congr_left {x y z : Coupon × ℚ} (hd : x.2 = y.2)
    (he : x.1.endDate = y.1.endDate) (hc : x.1.code = y.1.code) :
    CandLt x z ↔ CandLt y z := by
  unfold CandLt
  rw [hd, he, hc]

theorem candLt_negtrans {x y z : Coupon × ℚ} (h : CandLt x z) : CandLt x y ∨ CandLt y z := by
  by_cases hxy : CandLt x y
  · exact Or.inl hxy
  by_cases hyx : CandLt y x
  · exact Or.inr (candLt_trans hyx h)
  · obtain ⟨hd, he, hc⟩ := candLt_connex hxy hyx
    exact Or.inr ((candLt_congr_left hd he hc).mp h)

theorem pickFrom_mem (x : Coupon × ℚ) (xs : List (Coupon × ℚ)) :
    pickFrom x xs ∈ x :: xs := by
  induction xs generalizing x with
  | nil => exact List.mem_singleton.mpr rfl
  | cons y ys ih =>
    have hstep : pickFrom x (y :: ys) = pickFrom (if CandLt y x then y else x) ys := rfl
    rw [hstep]
    rcases List.mem_cons.mp (ih (if CandLt y x then y else x)) with h | h
    · rw [h]
      split
      · exact List.mem_cons_of_mem _ (List.mem_cons_self _ _)
      · exact List.mem_cons_self _ _
    · exact List.mem_cons_of_mem _ (List.mem_cons_of_mem _ h)

theorem pickFrom_min (x : Coupon × ℚ) (xs : List (Coupon × ℚ)) :
    ∀ z ∈ x :: xs, ¬ CandLt z (pickFrom x xs) := by
  induction xs generalizing x with
  | nil =>
    intro z hz
    rw [List.mem_singleton.mp hz]
    exact candLt_irrefl x
  | cons y ys ih =>
    intro z hz
    have hstep : pickFrom x (y :: ys) = pickFrom (if CandLt y x then y else x) ys := rfl
    rw [hstep]
    have ihead := ih (if CandLt y x then y else x) _ (List.mem_cons_self _ _)
    rcases List.mem_cons.mp hz with hzx | hz'
    · subst hzx
      by_cases hyx : CandLt y z
      · rw [if_pos hyx] at ihead ⊢
        intro hzr
        rcases @candLt_negtrans z y _ hzr with hxy | hyr
        · exact candLt_irrefl z (candLt_trans hxy hyx)
        · exact ihead hyr
      · rw [if_neg hyx] at ihead ⊢
        exact ihead
    rcases List.mem_cons.mp hz' with hzy | hzys
    · subst hzy
      by_cases hyx : CandLt z x
      · rw [if_pos hyx] at ihead ⊢
        exact ihead
      · rw [if_neg hyx] at ihead ⊢
        intro hzr
        rcases @candLt_negtrans z x _ hzr with hyx' | hxr
        · exact hyx hyx'
        · exact ihead hxr
    · exact ih (if CandLt y x then y else x) z (List.mem_cons_of_mem _ hzys)

/-! Characterisation of the candidate set, and helper lemmas on the catalog
association list. -/

theorem mem_candidate_discounts {db : List Coupon} {usage : UsageStore} {today : Date}
    {user : UserContext} {cart : Cart} {c : Coupon} {d : ℚ}
    (h : (c, d) ∈ candidate_discounts db usage today user cart) :
    c ∈ db ∧ is_within_date_range c today = true ∧
      has_remaining_usage usage c user = true ∧
      user_eligibility_ok c.eligibility user (decide (user.ordersPlaced = 0)) = true ∧
      cart_eligibility_ok c.eligibility cart = true ∧
      d = compute_discount c (compute_cart_value cart) ∧ 0 < d := by
  unfold candidate_discounts at h
  rw [List.mem_filterMap] at h
  obtain ⟨a, ha, hfa⟩ := h
  by_cases hguard :
      (is_within_date_range a today &&
        has_remaining_usage usage a user &&
        user_eligibility_ok a.eligibility user (decide (user.ordersPlaced = 0)) &&
        cart_eligibility_ok a.eligibility cart) = true
  · rw [if_pos hguard] at hfa
    by_cases hpos : 0 < compute_discount a (compute_cart_value cart)
    · rw [if_pos hpos] at hfa
      obtain ⟨hac, had⟩ := Prod.mk.injEq .. ▸ Option.some.injEq .. ▸ hfa
      subst hac
      simp only [Bool.and_eq_true] at hguard
      exact ⟨ha, hguard.1.1.1, hguard.1.1.2, hguard.1.2, hguard.2, had.symm, had ▸ hpos⟩
    · rw [if_neg hpos] at hfa
      exact absurd hfa (Option.noConfusion)
  · rw [if_neg hguard] at hfa
    exact absurd hfa (Option.noConfusion)

theorem dbLookup_append_ne {db : List (String × Coupon)} {key k : String} {v : Coupon}
    (h : k ≠ key) : dbLookup (db ++ [(key, v)]) k = dbLookup db k := by
  induction db with
  | nil => simp [dbLookup, h]
  | cons p rest ih =>
    by_cases hk : k = p.1
    · simp [dbLookup, hk]
    · simp [dbLookup, hk, ih]

theorem dbLookup_append_self {db : List (String × Coupon)} {key : String} {v : Coupon}
    (h : dbLookup db key = none) : dbLookup (db ++ [(key, v)]) key = some v := by
  induction db with
  | nil => simp [dbLookup]
  | cons p rest ih =>
    by_cases hk : key = p.1
    · rw [dbLookup, if_pos hk] at h
      exact absurd h (Option.noConfusion)
    · rw [dbLookup, if_neg hk] at h
      show dbLookup ((p.1, p.2) :: (rest ++ [(key, v)])) key = some v
      rw [dbLookup, if_neg hk]
      exact ih h

/-! Definitions written from the specification's words (for the refinement
claims); they are compared against the code-derived functions above. -/

/-- Modelled from the spec: `clamp(raw discount, 0, cartValue)` of §4.3. -/
def clamp (x lo hi : ℚ) : ℚ := max lo (min x hi)

/-- Modelled from the spec (§4.3): FLAT ⇒ raw = discountValue, the cap field
ignored; PERCENT ⇒ raw = cartValue × (discountValue / 100), then
`min raw cap` when a cap is present; other types ⇒ raw = 0; result =
`clamp raw 0 cartValue`; type comparison after ASCII upper-casing. -/
def compute_discount_spec (coupon : Coupon) (cart_value : ℚ) : ℚ :=
  let t := pyUpper coupon.discountType
  let raw : ℚ :=
    if t = "FLAT" then coupon.discountValue
    else if t = "PERCENT" then
      let r := cart_value * (coupon.discountValue / 100)
      match coupon.maxDiscountAmount with
      | some cap => min r cap
      | none => r
    else 0
  clamp raw 0 cart_value

/-- Modelled from the spec's words for claim C4: the cart-side check fails
exactly when a present constraint is violated, where "present" includes an
empty category set. -/
def cart_eligibility_claimed (elig : Eligibility) (cart : Cart) : Bool :=
  !((match elig.minCartValue with
     | some m => decide (compute_cart_value cart < m)
     | none => false) ||
    (match elig.minItemsCount with
     | some m => decide (compute_items_count cart < m)
     | none => false) ||
    (match elig.applicableCategories with
     | some cats => !((get_cart_categories cart).any fun c => cats.contains c)
     | none => false) ||
    (match elig.excludedCategories with
     | some cats => (get_cart_categories cart).any fun c => cats.contains c
     | none => false))

/-- The amended cart-side specification: as `cart_eligibility_claimed`, except
that a present-but-empty applicable-category set imposes no constraint (Python
truthiness treats the empty list as absent). -/
def cart_eligibility_amended (elig : Eligibility) (cart : Cart) : Bool :=
  !((match elig.minCartValue with
     | some m => decide (compute_cart_value cart < m)
     | none => false) ||
    (match elig.minItemsCount with
     | some m => decide (compute_items_count cart < m)
     | none => false) ||
    (match elig.applicableCategories with
     | some (a :: tl) => !((get_cart_categories cart).any fun c => (a :: tl).contains c)
     | _ => false) ||
    (match elig.excludedCategories with
     | some cats => (get_cart_categories cart).any fun c => cats.contains c
     | none => false))

/-! Concrete fixtures used in the claims' example clauses and witnesses. -/

/-- A FLAT coupon with `discountValue = 10` (spec §8 example). -/
def couponFLAT10 : Coupon :=
  { code := "FLAT10", description := "", discountType := "FLAT", discountValue := 10,
    startDate := 20240101, endDate := 20261231 }

/-- A PERCENT coupon with `discountValue = 50` and cap `20` (spec §8 example). -/
def couponPCT50 : Coupon :=
  { code := "PCT50", description := "", discountType := "PERCENT", discountValue := 50,
    maxDiscountAmount := some 20, startDate := 20240101, endDate := 20261231 }

/-- Tie-break example: code `"A10"`, the later endDate 2025-02-01. -/
def couponA10 : Coupon :=
  { code := "A10", description := "", discountType := "FLAT", discountValue := 15,
    startDate := 20240101, endDate := 20250201 }

/-- Tie-break example: code `"B10"`, the earlier endDate 2025-01-01. -/
def couponB10 : Coupon :=
  { code := "B10", description := "", discountType := "FLAT", discountValue := 15,
    startDate := 20240101, endDate := 20250101 }

/-- Tie-break example: code `"ALPHA"`, same endDate as `couponBETA`. -/
def couponALPHA : Coupon :=
  { code := "ALPHA", description := "", discountType := "FLAT", discountValue := 12,
    startDate := 20240101, endDate := 20251231 }

/-- Tie-break example: code `"BETA"`, same endDate as `couponALPHA`. -/
def couponBETA : Coupon :=
  { code := "BETA", description := "", discountType := "FLAT", discountValue := 12,
    startDate := 20240101, endDate := 20251231 }

/-- An unknown-discount-type coupon (claim C7). -/
def couponBOGO : Coupon :=
  { code := "BOGO1", description := "", discountType := "BOGO", discountValue := 10,
    startDate := 20240101, endDate := 20261231 }

/-- A coupon with `usageLimitPerUser = 1` (claim C6). -/
def couponLIM1 : Coupon :=
  { code := "LIM1", description := "", discountType := "FLAT", discountValue := 10,
    startDate := 20240101, endDate := 20261231, usageLimitPerUser := some 1 }

/-- A coupon whose `startDate` is strictly after its `endDate` (claim C10). -/
def couponInverted : Coupon :=
  { code := "INV1", description := "", discountType := "FLAT", discountValue := 10,
    startDate := 20250101, endDate := 20240101 }

/-- An eligibility rule set with a present-but-empty applicable-category set
(claim C4 counterexample). -/
def eligEmptyApplicable : Eligibility := { applicableCategories := some [] }

/-- An eligibility rule set restricted to the `"electronics"` category. -/
def eligElectronics : Eligibility := { applicableCategories := some ["electronics"] }

/-- A cart holding a single grocery item. -/
def cartGrocery : Cart :=
  ⟨[{ productId := "p1", category := "grocery", unitPrice := 1, quantity := 1 }]⟩

/-- The empty cart. -/
def cartEmpty : Cart := ⟨[]⟩

/-- A user with no recorded usage relevant to the fixtures. -/
def user0 : UserContext :=
  { userId := "u1", userTier := "NEW", country := "IN", lifetimeSpend := 0, ordersPlaced := 0 }

/-- The empty usage store. -/
def usage0 : UsageStore := fun _ => 0

/-- A usage store recording one prior use of `couponLIM1` by `user0`. -/
def usageLIM1 : UsageStore := fun k => if k = ("u1", "LIM1") then 1 else 0

theorem get_best_coupon_of_pick_none {db : List Coupon} {usage : UsageStore} {today : Date}
    {user : UserContext} {cart : Cart}
    (h : pick_best_coupon (candidate_discounts db usage today user cart) = none) :
    get_best_coupon db usage today user cart = (⟨none, 0⟩, usage) := by
  unfold get_best_coupon
  rw [h]

theorem get_best_coupon_of_pick_some {db : List Coupon} {usage : UsageStore} {today : Date}
    {user : UserContext} {cart : Cart} {c : Coupon} {d : ℚ}
    (h : pick_best_coupon (candidate_discounts db usage today user cart) = some (c, d)) :
    get_best_coupon db usage today user cart =
      (⟨some c, d⟩, increment_usage usage c user) := by
  unfold get_best_coupon
  rw [h]

/-- C1: for every coupon (any `discountType`, any `discountValue` of any sign
or magnitude, any optional `maxDiscountAmount`) and every non-negative cart
value `v`, `compute_discount coupon v` lies in the closed interval `[0, v]`. -/
theorem compute_discount_clamped_range (coupon : Coupon) (v : ℚ) (hv : 0 ≤ v) :
    0 ≤ compute_discount coupon v ∧ compute_discount coupon v ≤ v := by
  simp only [compute_discount]
  exact ⟨le_max_left _ _, max_le hv (min_le_right _ _)⟩

theorem compute_discount_clamped_range_witness :
    0 ≤ compute_discount couponFLAT10 5 ∧ compute_discount couponFLAT10 5 ≤ 5 :=
  compute_discount_clamped_range couponFLAT10 5 (by norm_num)

/-- C3: `compute_discount` agrees with the reference definition (FLAT ⇒ raw =
`discountValue`, cap ignored; PERCENT ⇒ raw = `cartValue × discountValue/100`
reduced by the cap when present; unknown ⇒ 0; final result clamped to
`[0, cartValue]`); in particular FLAT 10 on a cart of 5 yields 5, and
PERCENT 50 with cap 20 on a cart of 100 yields 20. -/
theorem compute_discount_refines_spec :
    (∀ (coupon : Coupon) (v : ℚ),
      compute_discount coupon v = compute_discount_spec coupon v) ∧
    compute_discount couponFLAT10 5 = 5 ∧
    compute_discount couponPCT50 100 = 20 := by
  refine ⟨fun coupon v => rfl, by decide, ?_⟩
  have h1 : pyUpper "PERCENT" ≠ "FLAT" := by decide
  have h2 : pyUpper "PERCENT" = "PERCENT" := by decide
  have h3 : ("PERCENT" : String) ≠ "FLAT" := by decide
  simp only [compute_discount, couponPCT50, h2, if_neg h1, if_neg h3]
  norm_num [min_def, max_def]

/-- C7: a coupon whose ASCII-upper-cased `discountType` is neither `"FLAT"`
nor `"PERCENT"` gets discount 0 from `compute_discount` for every cart value
(no error is raised), and such a coupon never appears in the candidate set,
since candidates need a strictly positive discount. -/
theorem unknown_discount_type_zero (c : Coupon)
    (h1 : pyUpper c.discountType ≠ "FLAT") (h2 : pyUpper c.discountType ≠ "PERCENT") :
    (∀ v : ℚ, compute_discount c v = 0) ∧
    ∀ (db : List Coupon) (usage : UsageStore) (today : Date) (user : UserContext)
      (cart : Cart) (d : ℚ), (c, d) ∉ candidate_discounts db usage today user cart := by
  have hz : ∀ v : ℚ, compute_discount c v = 0 := by
    intro v
    simp only [compute_discount, if_neg h1, if_neg h2]
    exact max_eq_left (min_le_left 0 v)
  refine ⟨hz, ?_⟩
  intro db usage today user cart d hmem
  have hp := (mem_candidate_discounts hmem).2.2.2.2.2
  rw [hz] at hp
  exact lt_irrefl 0 (hp.1 ▸ hp.2)

theorem unknown_discount_type_zero_witness :
    compute_discount couponBOGO 7 = 0 ∧
    (couponBOGO, (5:ℚ)) ∉ candidate_discounts [couponBOGO] usage0 20250101 user0 cartEmpty :=
  ⟨(unknown_discount_type_zero couponBOGO (by decide) (by decide)).1 7,
   (unknown_discount_type_zero couponBOGO (by decide) (by decide)).2
     [couponBOGO] usage0 20250101 user0 cartEmpty 5⟩

/-- C10: a coupon with `startDate` strictly after `endDate` fails
`is_within_date_range` for every evaluation date, and therefore never enters
the candidate set of any request. -/
theorem inverted_dates_inactive (c : Coupon) (h : c.endDate < c.startDate) :
    (∀ today : Date, is_within_date_range c today = false) ∧
    ∀ (db : List Coupon) (usage : UsageStore) (today : Date) (user : UserContext)
      (cart : Cart) (d : ℚ), (c, d) ∉ candidate_discounts db usage today user cart := by
  have hfalse : ∀ today : Date, is_within_date_range c today = false := by
    intro today
    simp only [is_within_date_range]
    by_cases hs : c.startDate ≤ today
    · have ht : ¬ today ≤ c.endDate := fun hle => absurd (le_trans hs hle) (not_le.mpr h)
      simp [ht]
    · simp [hs]
  refine ⟨hfalse, ?_⟩
  intro db usage today user cart d hmem
  have hp := (mem_candidate_discounts hmem).2.1
  rw [hfalse today] at hp
  exact Bool.false_ne_true hp

theorem inverted_dates_inactive_witness :
    is_within_date_range couponInverted 20240601 = false ∧
    (couponInverted, (10:ℚ)) ∉
      candidate_discounts [couponInverted] usage0 20240601 user0 cartEmpty :=
  ⟨(inverted_dates_inactive couponInverted (by decide)).1 20240601,
   (inverted_dates_inactive couponInverted (by decide)).2
     [couponInverted] usage0 20240601 user0 cartEmpty 10⟩

/-- C2: on a non-empty candidate list `pick_best_coupon` returns an element of
the list that no list element strictly precedes in the order "higher discount,
then earlier endDate, then ordinally smaller code" (`CandLt`); in particular
with equal discounts 15 it returns the coupon with the earlier endDate
2025-01-01 even though its code `"B10"` is the larger, and with equal discount
and endDate it returns code `"ALPHA"` over `"BETA"`. -/
theorem pick_best_coupon_minimal :
    (∀ l : List (Coupon × ℚ), l ≠ [] →
      ∃ b, pick_best_coupon l = some b ∧ b ∈ l ∧ ∀ y ∈ l, ¬ CandLt y b) ∧
    pick_best_coupon [(couponA10, 15), (couponB10, 15)] = some (couponB10, 15) ∧
    pick_best_coupon [(couponBETA, 12), (couponALPHA, 12)] = some (couponALPHA, 12) := by
  refine ⟨?_, by decide, by decide⟩
  intro l hl
  cases l with
  | nil => exact absurd rfl hl
  | cons x xs => exact ⟨pickFrom x xs, rfl, pickFrom_mem x xs, pickFrom_min x xs⟩

theorem pick_best_coupon_minimal_witness :
    ∃ b, pick_best_coupon [(couponA10, 15), (couponB10, 15)] = some b ∧
      b ∈ [(couponA10, 15), (couponB10, 15)] ∧
      ∀ y ∈ [(couponA10, 15), (couponB10, 15)], ¬ CandLt y b :=
  pick_best_coupon_minimal.1 [(couponA10, 15), (couponB10, 15)] (by simp)

/-- C9: the evaluation pipeline (candidate filtering plus selection, without
the usage increment) is deterministic — two runs on identical catalog, usage
store, date, user and cart yield the same result — and the tie-break
comparison `CandLt` is a strict total order on the key
`(discount, endDate, code)`: irreflexive, transitive, and connected. -/
theorem evaluation_deterministic :
    (∀ (db : List Coupon) (usage : UsageStore) (today : Date) (user : UserContext)
        (cart : Cart) (r1 r2 : Option (Coupon × ℚ)),
      r1 = pick_best_coupon (candidate_discounts db usage today user cart) →
      r2 = pick_best_coupon (candidate_discounts db usage today user cart) → r1 = r2) ∧
    (∀ x : Coupon × ℚ, ¬ CandLt x x) ∧
    (∀ x y z : Coupon × ℚ, CandLt x y → CandLt y z → CandLt x z) ∧
    (∀ x y : Coupon × ℚ, ¬ CandLt x y → ¬ CandLt y x →
      x.2 = y.2 ∧ x.1.endDate = y.1.endDate ∧ x.1.code = y.1.code) :=
  ⟨fun _ _ _ _ _ _ _ h1 h2 => h1.trans h2.symm,
   candLt_irrefl,
   fun _ _ _ h1 h2 => candLt_trans h1 h2,
   fun _ _ h1 h2 => candLt_connex h1 h2⟩

theorem evaluation_deterministic_witness :
    pick_best_coupon (candidate_discounts [couponFLAT10] usage0 20250101 user0 cartEmpty) =
      pick_best_coupon (candidate_discounts [couponFLAT10] usage0 20250101 user0 cartEmpty) ∧
    CandLt (couponA10, (3:ℚ)) (couponA10, (1:ℚ)) ∧
    ((couponA10, (3:ℚ)).2 = (couponA10, (3:ℚ)).2 ∧
      (couponA10, (3:ℚ)).1.endDate = (couponA10, (3:ℚ)).1.endDate ∧
      (couponA10, (3:ℚ)).1.code = (couponA10, (3:ℚ)).1.code) :=
  ⟨evaluation_deterministic.1 [couponFLAT10] usage0 20250101 user0 cartEmpty _ _ rfl rfl,
   evaluation_deterministic.2.2.1 (couponA10, 3) (couponA10, 2) (couponA10, 1)
     (by decide) (by decide),
   evaluation_deterministic.2.2.2 (couponA10, 3) (couponA10, 3) (by decide) (by decide)⟩

/-- C4 counterexample: a present-but-empty `applicableCategories` list is
disjoint from the cart's categories, so the claimed specification rejects the
cart, yet the code (Python truthiness skips an empty list) accepts it. -/
theorem cart_eligibility_empty_applicable_cex :
    cart_eligibility_ok eligEmptyApplicable cartGrocery = true ∧
    cart_eligibility_claimed eligEmptyApplicable cartGrocery = false := by
  decide

/-- C4 (amended): `cart_eligibility_ok` returns false exactly when a present
constraint is violated — cart value below `minCartValue`, item count below
`minItemsCount`, a present **non-empty** applicable-category set disjoint from
the cart categories, or a present excluded-category set intersecting them
(for the excluded set "present" may be empty; a present-but-empty applicable
set imposes no constraint). In particular `applicableCategories =
["electronics"]` rejects a grocery-only cart. -/
theorem cart_eligibility_matches_amended :
    (∀ (elig : Eligibility) (cart : Cart),
      cart_eligibility_ok elig cart = cart_eligibility_amended elig cart) ∧
    cart_eligibility_ok eligElectronics cartGrocery = false := by
  refine ⟨?_, by decide⟩
  intro elig cart
  unfold cart_eligibility_ok cart_eligibility_amended
  rcases elig with ⟨ts, mls, mop, fo, ac, mcv, app, exc, mic⟩
  rcases mcv with _ | m1 <;> rcases mic with _ | m2 <;>
    rcases app with _ | (_ | ⟨a, tl⟩) <;> rcases exc with _ | (_ | ⟨b, tl2⟩) <;>
      simp [Bool.not_or]

/-- C6: `has_remaining_usage` holds iff `usageLimitPerUser` is absent or the
user's recorded count for the coupon code is strictly below the limit; hence a
coupon with limit 1 and recorded count 1 is excluded from the candidate set
even when every other check passes. -/
theorem has_remaining_usage_spec (usage : UsageStore) (c : Coupon) (user : UserContext) :
    (has_remaining_usage usage c user = true ↔
      (c.usageLimitPerUser = none ∨
        ∃ lim, c.usageLimitPerUser = some lim ∧ usage (user.userId, c.code) < lim)) ∧
    (c.usageLimitPerUser = some 1 → usage (user.userId, c.code) = 1 →
      ∀ (db : List Coupon) (today : Date) (cart : Cart) (d : ℚ),
        (c, d) ∉ candidate_discounts db usage today user cart) := by
  constructor
  · cases h : c.usageLimitPerUser with
    | none => simp [has_remaining_usage, h]
    | some lim => simp [has_remaining_usage, h]
  · intro hlim hused db today cart d hmem
    have hrem := (mem_candidate_discounts hmem).2.2.1
    simp only [has_remaining_usage, hlim, hused, decide_eq_true_eq] at hrem
    exact lt_irrefl 1 hrem

theorem has_remaining_usage_spec_witness :
    (couponLIM1, (10:ℚ)) ∉
      candidate_discounts [couponLIM1] usageLIM1 20250101 user0 cartGrocery :=
  (has_remaining_usage_spec usageLIM1 couponLIM1 user0).2 rfl (by decide)
    [couponLIM1] 20250101 cartGrocery 10

/-- C5: a request whose candidate set is empty returns no coupon with
discount 0 and leaves the usage store entirely unchanged; a request that
returns coupon `c` increments exactly the `(userId, c.code)` counter by one
and leaves every other entry unchanged. -/
theorem get_best_coupon_usage_frame (db : List Coupon) (usage : UsageStore) (today : Date)
    (user : UserContext) (cart : Cart) :
    (candidate_discounts db usage today user cart = [] →
      get_best_coupon db usage today user cart = (⟨none, 0⟩, usage)) ∧
    ∀ c : Coupon, ((get_best_coupon db usage today user cart).1).coupon = some c →
      (get_best_coupon db usage today user cart).2 (user.userId, c.code) =
        usage (user.userId, c.code) + 1 ∧
      ∀ k, k ≠ (user.userId, c.code) →
        (get_best_coupon db usage today user cart).2 k = usage k := by
  constructor
  · intro h
    exact get_best_coupon_of_pick_none (by rw [h]; rfl)
  · intro c hc
    cases hpick : pick_best_coupon (candidate_discounts db usage today user cart) with
    | none =>
      rw [get_best_coupon_of_pick_none hpick] at hc
      exact absurd hc (Option.noConfusion)
    | some p =>
      obtain ⟨c', d'⟩ := p
      rw [get_best_coupon_of_pick_some hpick] at hc ⊢
      have hcc : c' = c := Option.some.injEq .. ▸ hc
      subst hcc
      constructor
      · simp [increment_usage]
      · intro k hk
        simp [increment_usage, hk]

theorem get_best_coupon_usage_frame_witness :
    get_best_coupon [] usage0 0 user0 cartEmpty = (⟨none, 0⟩, usage0) ∧
    (get_best_coupon [couponFLAT10] usage0 20250101 user0 cartGrocery).2
        (user0.userId, couponFLAT10.code) =
      usage0 (user0.userId, couponFLAT10.code) + 1 ∧
    (get_best_coupon [couponFLAT10] usage0 20250101 user0 cartGrocery).2
        ("u1", "OTHER") = usage0 ("u1", "OTHER") := by
  have hval : compute_cart_value cartGrocery = 1 := by
    simp [compute_cart_value, cartGrocery]
  have hdisc : compute_discount couponFLAT10 (compute_cart_value cartGrocery) = 1 := by
    rw [hval]
    decide
  have hguard : (is_within_date_range couponFLAT10 20250101 &&
      has_remaining_usage usage0 couponFLAT10 user0 &&
      user_eligibility_ok couponFLAT10.eligibility user0 (decide (user0.ordersPlaced = 0)) &&
      cart_eligibility_ok couponFLAT10.eligibility cartGrocery) = true := by decide
  have hcands : candidate_discounts [couponFLAT10] usage0 20250101 user0 cartGrocery =
      [(couponFLAT10, 1)] := by
    unfold candidate_discounts
    simp only [List.filterMap_cons, List.filterMap_nil, hguard, if_true, hdisc]
    norm_num
  have hpick : pick_best_coupon
      (candidate_discounts [couponFLAT10] usage0 20250101 user0 cartGrocery) =
      some (couponFLAT10, 1) := by
    rw [hcands]
    rfl
  have hsel : ((get_best_coupon [couponFLAT10] usage0 20250101 user0 cartGrocery).1).coupon =
      some couponFLAT10 := by
    rw [get_best_coupon_of_pick_some hpick]
  have hmain :=
    (get_best_coupon_usage_frame [couponFLAT10] usage0 20250101 user0 cartGrocery).2
      couponFLAT10 hsel
  exact ⟨(get_best_coupon_usage_frame [] usage0 0 user0 cartEmpty).1 rfl,
         hmain.1, hmain.2 ("u1", "OTHER") (by decide)⟩

/-- C8: creating a coupon whose upper-cased code is already a catalog key is
rejected with the catalog unchanged; otherwise the coupon is stored under its
upper-cased code with its `code` field normalised, and every other catalog
entry is unchanged. -/
theorem create_coupon_spec (db : List (String × Coupon)) (coupon : Coupon) :
    ((dbLookup db (pyUpper coupon.code)).isSome = true →
      create_coupon db coupon = (Except.error "Coupon code already exists", db)) ∧
    (dbLookup db (pyUpper coupon.code) = none →
      (create_coupon db coupon).1 =
        Except.ok { coupon with code := pyUpper coupon.code } ∧
      dbLookup (create_coupon db coupon).2 (pyUpper coupon.code) =
        some { coupon with code := pyUpper coupon.code } ∧
      ∀ k, k ≠ pyUpper coupon.code →
        dbLookup (create_coupon db coupon).2 k = dbLookup db k) := by
  constructor
  · intro h
    unfold create_coupon
    rw [if_pos h]
  · intro h
    have hcc : create_coupon db coupon =
        (Except.ok { coupon with code := pyUpper coupon.code },
         db ++ [(pyUpper coupon.code, { coupon with code := pyUpper coupon.code })]) := by
      unfold create_coupon
      rw [if_neg (by simp [h])]
    rw [hcc]
    exact ⟨rfl, dbLookup_append_self h, fun k hk => dbLookup_append_ne hk⟩

theorem create_coupon_spec_witness :
    create_coupon [(pyUpper couponFLAT10.code, couponFLAT10)] couponFLAT10 =
      (Except.error "Coupon code already exists",
       [(pyUpper couponFLAT10.code, couponFLAT10)]) ∧
    dbLookup (create_coupon [] couponFLAT10).2 (pyUpper couponFLAT10.code) =
      some { couponFLAT10 with code := pyUpper couponFLAT10.code } ∧
    dbLookup (create_coupon [] couponFLAT10).2 "OTHER" = dbLookup [] "OTHER" :=
  ⟨(create_coupon_spec [(pyUpper couponFLAT10.code, couponFLAT10)] couponFLAT10).1 (by decide),
   ((create_coupon_spec [] couponFLAT10).2 rfl).2.1,
   ((create_coupon_spec [] couponFLAT10).2 rfl).2.2 "OTHER" (by decide)⟩

end CouponService
